import Mathlib

/-!
# Verification of the OrthoFinder pipeline-control logic

Shallow embedding of the orchestration core of `scripts_of/__main__.py`:
the pairwise-search job scheduler (`GetOrderedSearchCommands`), the
argument-combination checks (`ProcessArgs`), the identifier-file validation
(`IDsFileOK`, `ProcessPreviousFiles`), the incremental species registration
(`ProcessesNewFasta`) and the search-database construction
(`CreateSearchDatabases`).

Files are modelled as lists of lines (each line given without its trailing
newline character, as Python's file iteration yields it up to the newline);
the filesystem is modelled by explicit presence predicates; external process
execution is out of scope.  Work orders are modelled by their
`(querySpeciesId, targetSpeciesId)` pairs: the command strings built from a
pair are one-to-one with the pair, so lengths, ordering and membership of the
command list coincide with those of the pair list.
-/

namespace OrthoFinder

/-! ## Python string primitives used by the source -/

/-- Python `str.rstrip()`: remove trailing whitespace. -/
def pyRstrip (s : String) : String :=
  ⟨(s.data.reverse.dropWhile Char.isWhitespace).reverse⟩

/-- Python `str.isspace()` on a line as yielded by file iteration: we model a
line without its trailing newline, so the empty model line corresponds to a
bare `"\n"` in the file, which `isspace` accepts. -/
def pyLineIsSpace (s : String) : Bool :=
  s.data.all Char.isWhitespace

/-- Split a character list at the first occurrence of the two-character
separator `": "`, returning the parts before and after it. -/
def breakColonSpace : List Char → Option (List Char × List Char)
  | [] => none
  | ':' :: ' ' :: rest => some ([], rest)
  | c :: rest =>
    match breakColonSpace rest with
    | none => none
    | some (a, b) => some (c :: a, b)

/-- Python `s.split(": ", 1)`: one or two tokens, split at the first `": "`. -/
def splitColonSpace1 (s : String) : List String :=
  match breakColonSpace s.data with
  | none => [s]
  | some (a, b) => [⟨a⟩, ⟨b⟩]

/-- The characters of `line.split(":")[0]`: everything before the first
colon (the whole line when it has no colon). -/
def beforeColon (l : List Char) : List Char :=
  l.takeWhile (fun c => c ≠ ':')

/-- Parse a digit string into a number. -/
def parseNatChars (l : List Char) : Option ℕ :=
  if l.isEmpty then none
  else if l.all Char.isDigit then
    some (l.foldl (fun n c => 10 * n + (c.toNat - 48)) 0)
  else none

/-- Python `int(s)` restricted to the non-negative integers the identifier
files contain: surrounding whitespace is tolerated, anything that is not a
digit string fails (in Python a `ValueError` that aborts the run). -/
def pyInt (s : String) : Option ℕ :=
  parseNatChars ((s.data.dropWhile Char.isWhitespace).reverse.dropWhile Char.isWhitespace).reverse

/-! ## JobScheduler: GetOrderedSearchCommands (`__main__.py` 147-163) -/

/-- Python `itertools.product l₁ l₂` in row-major enumeration order. -/
def pairProd (l₁ l₂ : List ℕ) : List (ℕ × ℕ) :=
  l₁.flatMap (fun i => l₂.map (fun j => (i, j)))

/-- The cost estimate of a work order: `nSeqs[query] * nSeqs[target]`. -/
def taskSize (nSeqsPerSpecies : ℕ → ℕ) (p : ℕ × ℕ) : ℕ :=
  nSeqsPerSpecies p.1 * nSeqsPerSpecies p.2

/-- The three priority bands of candidate species pairs built at
`__main__.py:152-156`: `iSpeciesPrevious = range(iFirstNewSpecies)`,
`iSpeciesNew = range(iFirstNewSpecies, nSpAll)`, and the concatenation of the
filtered products new×new, new×previous, previous×new, each pair kept when
`qDoubleBlast or i <= j`. -/
def speciesPairs (iFirstNewSpecies nSpAll : ℕ) (qDoubleBlast : Bool) : List (ℕ × ℕ) :=
  (pairProd (List.range' iFirstNewSpecies (nSpAll - iFirstNewSpecies))
        (List.range' iFirstNewSpecies (nSpAll - iFirstNewSpecies))).filter
      (fun p => qDoubleBlast || p.1 ≤ p.2)
    ++ (pairProd (List.range' iFirstNewSpecies (nSpAll - iFirstNewSpecies))
          (List.range iFirstNewSpecies)).filter
        (fun p => qDoubleBlast || p.1 ≤ p.2)
    ++ (pairProd (List.range iFirstNewSpecies)
          (List.range' iFirstNewSpecies (nSpAll - iFirstNewSpecies))).filter
        (fun p => qDoubleBlast || p.1 ≤ p.2)

/-- Modelled from the spec: `util.SortArrayPairByFirst` is imported from the
`util` module, whose source is not among the provided files; per §4.3 of the
specification the job list is sorted by descending cost estimate with a
stable sort, ties preserving the band-then-enumeration order.  Mathlib's
`insertionSort` is a stable sort; the relation places larger task sizes
first. -/
def SortArrayPairByFirst (cost : ℕ × ℕ → ℕ) (speciesPairs : List (ℕ × ℕ)) : List (ℕ × ℕ) :=
  speciesPairs.insertionSort (fun a b => cost b ≤ cost a)

/-- The function `GetOrderedSearchCommands` (`__main__.py:147-163`), modelled by the
`(iFasta, iDB)` pair of each emitted command: build the three bands of
species pairs, then order them so the largest estimated tasks come first. -/
def GetOrderedSearchCommands (nSeqsPerSpecies : ℕ → ℕ)
    (iFirstNewSpecies nSpAll : ℕ) (qDoubleBlast : Bool) : List (ℕ × ℕ) :=
  SortArrayPairByFirst (taskSize nSeqsPerSpecies) (speciesPairs iFirstNewSpecies nSpAll qDoubleBlast)

/-! ## WorkflowController: start-directive combination check (`ProcessArgs`,
`__main__.py` 581-595) -/

/-- The argument-combination gate of `ProcessArgs` restricted to the four
start directives `-f` (`qStartFromFasta`), `-b` (`qStartFromBlast`),
`-fg` (`qStartFromGroups`) and `-ft` (`qStartFromTrees`): `false` means
`util.Fail()` is reached (an `InputError`), mirroring the four checks at
`__main__.py:581-595` in order. -/
def startDirectivesOK (qStartFromFasta qStartFromBlast qStartFromGroups qStartFromTrees : Bool) :
    Bool :=
  if !(qStartFromFasta || qStartFromBlast || qStartFromGroups || qStartFromTrees) then false
  else if qStartFromFasta && (qStartFromTrees || qStartFromGroups) then false
  else if qStartFromBlast && (qStartFromTrees || qStartFromGroups) then false
  else if qStartFromTrees && qStartFromGroups then false
  else true

/-- How many of the four start directives are selected. -/
def countStartDirectives (qStartFromFasta qStartFromBlast qStartFromGroups qStartFromTrees : Bool) :
    ℕ :=
  (if qStartFromFasta then 1 else 0) + (if qStartFromBlast then 1 else 0)
    + (if qStartFromGroups then 1 else 0) + (if qStartFromTrees then 1 else 0)

/-! ## ContinuationValidator: identifier-file validation (`IDsFileOK`,
`__main__.py` 669-680) -/

/-- The check `IDsFileOK` (`__main__.py:669-680`) over the file's lines: strip each
line's trailing whitespace; skip it when empty; otherwise it must split at
`": "` into two tokens with a non-empty second token, else the (stripped)
line is returned as the offending content. -/
def IDsFileOK : List String → Bool × Option String
  | [] => (true, none)
  | line :: rest =>
    let l := pyRstrip line
    if l.length = 0 then IDsFileOK rest
    else
      match splitColonSpace1 l with
      | [_t1, t2] => if t2.length = 0 then (false, some l) else IDsFileOK rest
      | _ => (false, some l)

/-- A line `IDsFileOK` accepts (after stripping trailing whitespace it is
empty, or splits at `": "` with a non-empty label). -/
def lineOK (line : String) : Bool :=
  let l := pyRstrip line
  (l.length = 0)
    || (match splitColonSpace1 l with
        | [_t1, t2] => !(t2.length = 0)
        | _ => false)

/-! ## ContinuationValidator: pairwise result-file check
(`ProcessPreviousFiles`, `__main__.py` 756-775) -/

/-- Outcome of the BLAST-results portion of `ProcessPreviousFiles`:
success, the bare `LogFailAndExit()` (generic missing-file failure,
`__main__.py:769,775`), or the distinct diagnosis that the results suffice
for the one-way search but not the two-way search (`__main__.py:772`). -/
inductive BlastCheckOutcome
  | ok
  | failGeneric
  | failOneWayOnly
  deriving DecidableEq, Repr

/-- The triangular result-file pairs `(i, j)` with `j ≥ i`, in the
enumeration order of `__main__.py:757`. -/
def blastPairsTriangular (speciesToUse : List ℕ) : List (ℕ × ℕ) :=
  speciesToUse.flatMap (fun i => (speciesToUse.filter (fun j => i ≤ j)).map (fun j => (i, j)))

/-- The complementary result-file pairs `(i, j)` with `j < i`
(`__main__.py:763`). -/
def blastPairsRemainder (speciesToUse : List ℕ) : List (ℕ × ℕ) :=
  speciesToUse.flatMap (fun i => (speciesToUse.filter (fun j => j < i)).map (fun j => (i, j)))

/-- The triangular result files reported missing by the pass at
`__main__.py:758-760`: a file counts as present when the plain file or its
`.gz` variant exists. -/
def missingTriangular (speciesToUse : List ℕ) (existsPlain existsGz : ℕ → ℕ → Bool) :
    List (ℕ × ℕ) :=
  (blastPairsTriangular speciesToUse).filter
    (fun p => !(existsPlain p.1 p.2 || existsGz p.1 p.2))

/-- The complementary result files reported missing by the pass at
`__main__.py:764-767`. -/
def missingRemainder (speciesToUse : List ℕ) (existsPlain existsGz : ℕ → ℕ → Bool) :
    List (ℕ × ℕ) :=
  (blastPairsRemainder speciesToUse).filter
    (fun p => !(existsPlain p.1 p.2 || existsGz p.1 p.2))

/-- The BLAST-results check of `ProcessPreviousFiles` (`__main__.py:756-775`).
Returns the outcome and the list of missing files printed (triangular ones
first, `__main__.py:759-760`, then under the two-way policy the
complementary ones, `__main__.py:766-767`), all printed before any failure
exit. -/
def CheckPreviousBlastResults (speciesToUse : List ℕ) (qDoubleBlast : Bool)
    (existsPlain existsGz : ℕ → ℕ → Bool) : BlastCheckOutcome × List (ℕ × ℕ) :=
  if qDoubleBlast then
    if (missingTriangular speciesToUse existsPlain existsGz).isEmpty
        && (missingRemainder speciesToUse existsPlain existsGz).isEmpty then
      (.ok, missingTriangular speciesToUse existsPlain existsGz)
    else if !(missingTriangular speciesToUse existsPlain existsGz).isEmpty then
      (.failGeneric, missingTriangular speciesToUse existsPlain existsGz
        ++ missingRemainder speciesToUse existsPlain existsGz)
    else
      (.failOneWayOnly, missingTriangular speciesToUse existsPlain existsGz
        ++ missingRemainder speciesToUse existsPlain existsGz)
  else
    if (missingTriangular speciesToUse existsPlain existsGz).isEmpty then
      (.ok, missingTriangular speciesToUse existsPlain existsGz)
    else (.failGeneric, missingTriangular speciesToUse existsPlain existsGz)

/-! ## IdentityRegistry: incremental species registration
(`ProcessesNewFasta`, `__main__.py` 868-957) -/

/-- The structure `files.SpeciesInfo` as used by `__main__.py`: the in-use species ids,
the cardinality bound `nSpAll` and the incremental boundary
`iFirstNewSpecies`. -/
structure SpeciesInfo where
  speciesToUse : List ℕ
  nSpAll : ℕ
  iFirstNewSpecies : ℕ
  deriving DecidableEq, Repr

/-- The failure exits of `ProcessesNewFasta`: the `util.Fail()` calls at
`__main__.py:893` (fewer than two species), `:899` (duplicate species),
`:902` (no fasta files), `:935` (blank accession), `:953` (nucleotide
input without `-d`), and the uncaught `ValueError`/`NameError` when the
last line of the prior species-ID file does not parse
(`__main__.py:912-915`). -/
inductive NewFastaError
  | tooFewSpecies
  | duplicateSpecies
  | noFastaFiles
  | blankAccession
  | nucleotideNotAA
  | badSpeciesIDsFile
  deriving DecidableEq, Repr

instance {ε α : Type} [DecidableEq ε] [DecidableEq α] : DecidableEq (Except ε α) := fun x y =>
  match x, y with
  | .ok a, .ok b => if h : a = b then .isTrue (by rw [h]) else .isFalse (by simp [h])
  | .error a, .error b => if h : a = b then .isTrue (by rw [h]) else .isFalse (by simp [h])
  | .ok _, .error _ => .isFalse (by simp)
  | .error _, .ok _ => .isFalse (by simp)

/-- Result of `ProcessesNewFasta`, together with the records durably written
before the function returned or failed: lines appended to `SpeciesIDs.txt`,
records `(speciesId, localIndex, accession)` appended to `SequenceIDs.txt`,
and the ids of the per-species fasta files created. -/
structure NewFastaOutcome where
  result : Except NewFastaError SpeciesInfo
  speciesLinesWritten : List String
  seqIdsWritten : List (ℕ × ℕ × String)
  fastaFilesCreated : List ℕ
  deriving DecidableEq, Repr

/-- The fasta-extension filter of `__main__.py:880-884`: the filename splits
at its last dot into a base and an extension whose lowercase form is one of
`fastaExtensions` (`__main__.py:79`), and it does not start with `"._"`. -/
def isFastaFilename (f : String) : Bool :=
  (f.data.contains '.')
    && ((⟨((f.data.reverse.takeWhile (fun c => c ≠ '.')).reverse).map Char.toLower⟩ : String)
          ∈ ["fa", "faa", "fasta", "fas", "pep"])
    && !(match f.data with | '.' :: '_' :: _ => true | _ => false)

/-- The species id the next registered species receives, read from the last
line of the existing `SpeciesIDs.txt` (`__main__.py:911-915`): one leading
`#` is dropped, the text before the first colon is parsed as an integer and
incremented.  `none` models the uncaught Python exception on an empty file
or an unparseable last line. -/
def nextSpeciesIdFromFile (speciesIDsLines : List String) : Option ℕ :=
  match speciesIDsLines.getLast? with
  | none => none
  | some lastLine =>
    let cs := match lastLine.data with
      | '#' :: rest => rest
      | cs => cs
    match pyInt ⟨beforeColon cs⟩ with
    | none => none
    | some m => some (m + 1)

/-- The species id recorded on one line of the species-ID file, parsed the
way `__main__.py:914-915` parses the last line: one leading `#` dropped, the
text before the first colon read as an integer. -/
def lineSpeciesId (l : String) : Option ℕ :=
  pyInt ⟨beforeColon (match l.data with
    | '#' :: rest => rest
    | cs => cs)⟩

/-- One pass over the lines of a fasta file (`__main__.py:927-944`),
carrying the enumeration index `iLine`, the per-species sequence counter
`iSeq` and the amino-acid evidence flag `qHasAA`.  Returns the sequence-ID
records written, the final `qHasAA`, and whether the pass aborted on a blank
accession (`__main__.py:933-935`, records written before the abort are
kept). -/
def scanFasta (iSpecies : ℕ) : List String → ℕ → ℕ → Bool →
    List (ℕ × ℕ × String) × Bool × Bool
  | [], _iLine, _iSeq, qHasAA => ([], qHasAA, false)
  | line :: rest, iLine, iSeq, qHasAA =>
    if pyLineIsSpace line then scanFasta iSpecies rest (iLine + 1) iSeq qHasAA
    else
      match line.data with
      | '>' :: accChars =>
        let acc := pyRstrip ⟨accChars⟩
        if acc.length = 0 then ([], qHasAA, true)
        else
          let r := scanFasta iSpecies rest (iLine + 1) (iSeq + 1) qHasAA
          ((iSpecies, iSeq, acc) :: r.1, r.2.1, r.2.2)
      | lineChars =>
        let up := lineChars.map Char.toUpper
        let qHasAA := qHasAA
          || (decide (iLine < 100)
              && (['E', 'F', 'I', 'L', 'P', 'Q'].any (fun c => up.contains c)))
        scanFasta iSpecies rest (iLine + 1) iSeq qHasAA

/-- The per-file loop of `ProcessesNewFasta` (`__main__.py:919-951`):
for each input fasta, record its new id, create its per-species fasta file,
append its `SpeciesIDs.txt` line, and scan its sequences.  Returns
`(newSpeciesIDs, speciesLines, seqRecords, fastaIds, qOk, abortedBlank)`
where `qOk` is false when some file lacked amino-acid evidence and `-d` was
not given (checked after the loop, `__main__.py:946-953`), and
`abortedBlank` reports the immediate `util.Fail()` on a blank accession. -/
def processFastaFiles (contents : String → List String) (q_dna : Bool) :
    List String → ℕ → List ℕ × List String × List (ℕ × ℕ × String) × List ℕ × Bool × Bool
  | [], _iSpecies => ([], [], [], [], true, false)
  | fastaFilename :: rest, iSpecies =>
    let fn := pyRstrip fastaFilename
    let speciesLine := toString iSpecies ++ ": " ++ fn
    let scanned := scanFasta iSpecies (contents fn) 0 0 false
    if scanned.2.2 then
      ([iSpecies], [speciesLine], scanned.1, [iSpecies], true, true)
    else
      let r := processFastaFiles contents q_dna rest (iSpecies + 1)
      (iSpecies :: r.1, speciesLine :: r.2.1, scanned.1 ++ r.2.2.1, iSpecies :: r.2.2.2.1,
        r.2.2.2.2.1 && !(!scanned.2.1 && !q_dna), r.2.2.2.2.2)

/-- Maximum of a list of ids (the list is non-empty wherever the source
takes `max`). -/
def maxId (l : List ℕ) : ℕ := l.foldr max 0

/-- The tail of `ProcessesNewFasta` after all input guards have passed
(`__main__.py:917-956`): run the per-file loop from `iSpecies0`, fail on a
blank accession or on nucleotide input without `-d`, otherwise extend
`speciesToUse` with the new ids and set `nSpAll = max(speciesToUse) + 1`. -/
def registerNewSpecies (contents : String → List String) (q_dna : Bool)
    (speciesInfoObj : SpeciesInfo) (originalFastaFilenames : List String) (iSpecies0 : ℕ) :
    NewFastaOutcome :=
  let r := processFastaFiles contents q_dna originalFastaFilenames iSpecies0
  if r.2.2.2.2.2 then ⟨.error .blankAccession, r.2.1, r.2.2.1, r.2.2.2.1⟩
  else if !r.2.2.2.2.1 then ⟨.error .nucleotideNotAA, r.2.1, r.2.2.1, r.2.2.2.1⟩
  else
    let speciesToUse := speciesInfoObj.speciesToUse ++ r.1
    ⟨.ok ⟨speciesToUse, maxId speciesToUse + 1, iSpecies0⟩, r.2.1, r.2.2.1, r.2.2.2.1⟩

/-- The function `ProcessesNewFasta` (`__main__.py:868-957`).  Inputs: the (sorted)
plain-file names of the supplied fasta directory, the `-d` flag, the
species info and registered names of a prior run (`none`/`[]` for a fresh
analysis), the lines of the existing `SpeciesIDs.txt` (consulted only in the
incremental case), and the contents of each fasta file.  The checks run in
source order: fasta-name filtering, the fewer-than-two-species guard
(`:891`), the duplicate-species guard (`:894`), the no-fasta-files guard
(`:900`); then the incremental boundary is computed from the last line of
`SpeciesIDs.txt` (`:911-916`) and the per-file loop assigns ids
sequentially, appending to the id files, before `speciesToUse` and `nSpAll`
are extended (`:955-956`). -/
def ProcessesNewFasta (filesInDirectory : List String) (q_dna : Bool)
    (speciesInfoObj_prev : Option SpeciesInfo) (speciesToUse_prev_names : List String)
    (speciesIDsLines : List String) (contents : String → List String) : NewFastaOutcome :=
  let originalFastaFilenames := filesInDirectory.filter isFastaFilename
  let prevNames := speciesToUse_prev_names.dedup
  if originalFastaFilenames.length + prevNames.length < 2 then
    ⟨.error .tooFewSpecies, [], [], []⟩
  else if originalFastaFilenames.any (fun fn => fn ∈ prevNames) then
    ⟨.error .duplicateSpecies, [], [], []⟩
  else if originalFastaFilenames.length = 0 then
    ⟨.error .noFastaFiles, [], [], []⟩
  else
    let speciesInfoObj := speciesInfoObj_prev.getD ⟨[], 0, 0⟩
    let iSpecies0? : Option ℕ :=
      if prevNames.length ≠ 0 then nextSpeciesIdFromFile speciesIDsLines else some 0
    match iSpecies0? with
    | none => ⟨.error .badSpeciesIDsFile, [], [], []⟩
    | some iSpecies0 =>
      registerNewSpecies contents q_dna speciesInfoObj originalFastaFilenames iSpecies0

/-! ## Prepare→Search transition: search-database construction
(`CreateSearchDatabases`, `__main__.py` 787-799) -/

/-- The species ids for which `CreateSearchDatabases` issues a
database-construction command: `nDB = max(speciesToUse) + 1` and the loop
runs over `range(nDB)` (`__main__.py:788-789`). -/
def CreateSearchDatabases (speciesToUse : List ℕ) : List ℕ :=
  List.range (maxId speciesToUse + 1)

/-! ## Helper lemmas about pair products and ranges -/

theorem pairProd_nil (l : List ℕ) : pairProd [] l = [] := rfl

theorem pairProd_cons (x : ℕ) (l₁ l₂ : List ℕ) :
    pairProd (x :: l₁) l₂ = l₂.map (fun j => (x, j)) ++ pairProd l₁ l₂ := by
  simp [pairProd]

theorem pairProd_length (l₁ l₂ : List ℕ) : (pairProd l₁ l₂).length = l₁.length * l₂.length := by
  induction l₁ with
  | nil => simp [pairProd]
  | cons x l ih => simp [pairProd_cons, ih, Nat.succ_mul, Nat.add_comm]

theorem mem_pairProd {l₁ l₂ : List ℕ} {p : ℕ × ℕ} :
    p ∈ pairProd l₁ l₂ ↔ p.1 ∈ l₁ ∧ p.2 ∈ l₂ := by
  simp only [pairProd, List.mem_flatMap, List.mem_map]
  constructor
  · rintro ⟨i, hi, j, hj, rfl⟩
    exact ⟨hi, hj⟩
  · rintro ⟨h1, h2⟩
    exact ⟨p.1, h1, p.2, h2, rfl⟩

theorem count_map_pair (x a b : ℕ) (l : List ℕ) :
    (l.map (fun j => (x, j))).count (a, b) = if x = a then l.count b else 0 := by
  induction l with
  | nil => simp
  | cons y l ih =>
    simp only [List.map_cons, List.count_cons, ih, beq_iff_eq, Prod.mk.injEq]
    by_cases hx : x = a <;> by_cases hy : y = b <;> simp [hx, hy]

theorem pairProd_count (l₁ l₂ : List ℕ) (a b : ℕ) :
    (pairProd l₁ l₂).count (a, b) = l₁.count a * l₂.count b := by
  induction l₁ with
  | nil => simp [pairProd]
  | cons x l ih =>
    rw [pairProd_cons, List.count_append, ih, count_map_pair, List.count_cons]
    by_cases hx : x = a <;> simp [hx, Nat.add_mul, Nat.add_comm]

theorem mem_range'_ge {a n m : ℕ} (h : m ∈ List.range' a n) : a ≤ m :=
  (List.mem_range'_1.mp h).1

theorem mem_range'_lt {a n m : ℕ} (h : m ∈ List.range' a n) : m < a + n :=
  (List.mem_range'_1.mp h).2

/-- Removing a head element smaller than every first component from the
second factor does not change the `fst ≤ snd` filtered product. -/
theorem filter_le_pairProd_cons_right (a : ℕ) (l₁ l₂ : List ℕ) (h : ∀ i ∈ l₁, a < i) :
    (pairProd l₁ (a :: l₂)).filter (fun p => decide (p.1 ≤ p.2))
      = (pairProd l₁ l₂).filter (fun p => decide (p.1 ≤ p.2)) := by
  induction l₁ with
  | nil => simp [pairProd]
  | cons x l ih =>
    have hax : a < x := h x (List.mem_cons_self x l)
    rw [pairProd_cons, pairProd_cons, List.filter_append, List.filter_append,
      ih (fun i hi => h i (List.mem_cons_of_mem x hi))]
    congr 1
    simp only [List.map_cons, List.filter_cons]
    have : (decide (x ≤ a)) = false := by simp [Nat.not_le.mpr hax]
    simp [this]

/-- Twice the number of pairs `(i, j)` with `i ≤ j` drawn from a length-`n`
range is `n * (n + 1)`. -/
theorem filter_le_pairProd_range'_length (n : ℕ) : ∀ a : ℕ,
    ((pairProd (List.range' a n) (List.range' a n)).filter
        (fun p => decide (p.1 ≤ p.2))).length * 2 = n * (n + 1) := by
  induction n with
  | zero => intro a; simp [pairProd]
  | succ n ih =>
    intro a
    have hgt : ∀ i ∈ List.range' (a + 1) n, a < i := fun i hi => mem_range'_ge hi
    rw [List.range'_succ, pairProd_cons, List.filter_append,
      filter_le_pairProd_cons_right a _ _ hgt]
    have hmap : ((a :: List.range' (a + 1) n).map (fun j => (a, j))).filter
        (fun p => decide (p.1 ≤ p.2))
        = (a :: List.range' (a + 1) n).map (fun j => (a, j)) := by
      rw [List.filter_eq_self]
      intro p hp
      rcases List.mem_map.mp hp with ⟨j, hj, rfl⟩
      rcases List.mem_cons.mp hj with rfl | hj'
      · simp
      · simp [Nat.le_of_lt (mem_range'_ge hj' : a + 1 ≤ j)]
    rw [hmap]
    have hlen := ih (a + 1)
    rw [List.length_append, List.length_map, List.length_cons, List.length_range']
    calc (n + 1 + ((pairProd (List.range' (a + 1) n) (List.range' (a + 1) n)).filter
            (fun p => decide (p.1 ≤ p.2))).length) * 2
        = (n + 1) * 2 + ((pairProd (List.range' (a + 1) n) (List.range' (a + 1) n)).filter
            (fun p => decide (p.1 ≤ p.2))).length * 2 := by ring
      _ = (n + 1) * 2 + n * (n + 1) := by rw [hlen]
      _ = (n + 1) * (n + 1 + 1) := by ring

/-- Under the one-way policy the new×previous band is empty: every new id is
at least `iFirstNew` and every previous id is below it. -/
theorem filter_le_new_prev_nil (f k : ℕ) :
    (pairProd (List.range' f k) (List.range f)).filter (fun p => decide (p.1 ≤ p.2)) = [] := by
  rw [List.filter_eq_nil_iff]
  intro p hp
  rcases mem_pairProd.mp hp with ⟨h1, h2⟩
  have hf : f ≤ p.1 := mem_range'_ge h1
  have h2' : p.2 < f := List.mem_range.mp h2
  simp [Nat.not_le.mpr (lt_of_lt_of_le h2' hf)]

/-- Under the one-way policy the previous×new band passes the filter in
full: every previous id is below `iFirstNew` and every new id at least it. -/
theorem filter_le_prev_new_all (f k : ℕ) :
    (pairProd (List.range f) (List.range' f k)).filter (fun p => decide (p.1 ≤ p.2))
      = pairProd (List.range f) (List.range' f k) := by
  rw [List.filter_eq_self]
  intro p hp
  rcases mem_pairProd.mp hp with ⟨h1, h2⟩
  have h1' : p.1 < f := List.mem_range.mp h1
  exact decide_eq_true (Nat.le_of_lt (lt_of_lt_of_le h1' (mem_range'_ge h2)))

/-! ## Claims about the job scheduler -/

/-- C1: for every species set split at `iFirstNewSpecies` into
`previous = [0, iFirstNewSpecies)` and `new = [iFirstNewSpecies, nSpAll)`,
`GetOrderedSearchCommands` under the two-way policy produces exactly
`|new|² + 2·|new|·|previous|` work orders and never a previous×previous
pair; under the one-way policy it produces the `i ≤ j` half of the new×new
square, `|new|·(|new|+1)/2`, plus the surviving cross terms — the
new×previous band contributes nothing and the previous×new band contributes
`|previous|·|new|` — again with no previous×previous pair. -/
theorem getOrderedSearchCommands_job_counts (nSeqs : ℕ → ℕ) (iFirstNew nSpAll : ℕ) :
    ((GetOrderedSearchCommands nSeqs iFirstNew nSpAll true).length
        = (nSpAll - iFirstNew) * (nSpAll - iFirstNew)
            + 2 * ((nSpAll - iFirstNew) * iFirstNew))
      ∧ (∀ p ∈ GetOrderedSearchCommands nSeqs iFirstNew nSpAll true,
          ¬(p.1 < iFirstNew ∧ p.2 < iFirstNew))
      ∧ ((GetOrderedSearchCommands nSeqs iFirstNew nSpAll false).length
          = (nSpAll - iFirstNew) * (nSpAll - iFirstNew + 1) / 2
              + iFirstNew * (nSpAll - iFirstNew))
      ∧ (∀ p ∈ GetOrderedSearchCommands nSeqs iFirstNew nSpAll false,
          ¬(p.1 < iFirstNew ∧ p.2 < iFirstNew)) := by
  have hlen : ∀ q : Bool, (GetOrderedSearchCommands nSeqs iFirstNew nSpAll q).length
      = (speciesPairs iFirstNew nSpAll q).length := by
    intro q
    simp [GetOrderedSearchCommands, SortArrayPairByFirst]
  have hmem : ∀ (q : Bool) (p : ℕ × ℕ), p ∈ speciesPairs iFirstNew nSpAll q →
      ¬(p.1 < iFirstNew ∧ p.2 < iFirstNew) := by
    rintro q p hp ⟨h1, h2⟩
    rcases List.mem_append.mp hp with hp' | hp'
    · rcases List.mem_append.mp hp' with hp'' | hp''
      · exact absurd (mem_range'_ge (mem_pairProd.mp (List.mem_filter.mp hp'').1).1)
          (Nat.not_le.mpr h1)
      · exact absurd (mem_range'_ge (mem_pairProd.mp (List.mem_filter.mp hp'').1).1)
          (Nat.not_le.mpr h1)
    · exact absurd (mem_range'_ge (mem_pairProd.mp (List.mem_filter.mp hp').1).2)
        (Nat.not_le.mpr h2)
  have hmemS : ∀ (q : Bool) (p : ℕ × ℕ), p ∈ GetOrderedSearchCommands nSeqs iFirstNew nSpAll q →
      ¬(p.1 < iFirstNew ∧ p.2 < iFirstNew) := by
    intro q p hp
    exact hmem q p (by simpa [GetOrderedSearchCommands, SortArrayPairByFirst] using hp)
  refine ⟨?_, hmemS true, ?_, hmemS false⟩
  · rw [hlen true]
    simp only [speciesPairs, Bool.true_or]
    rw [List.filter_true, List.filter_true, List.filter_true]
    simp only [List.length_append, pairProd_length, List.length_range, List.length_range']
    ring
  · rw [hlen false]
    simp only [speciesPairs, Bool.false_or]
    rw [filter_le_new_prev_nil, filter_le_prev_new_all]
    simp only [List.length_append, List.length_nil, pairProd_length, List.length_range,
      List.length_range']
    have h2 := filter_le_pairProd_range'_length (nSpAll - iFirstNew) iFirstNew
    have hdiv : (nSpAll - iFirstNew) * (nSpAll - iFirstNew + 1) / 2
        = ((pairProd (List.range' iFirstNew (nSpAll - iFirstNew))
            (List.range' iFirstNew (nSpAll - iFirstNew))).filter
              (fun p => decide (p.1 ≤ p.2))).length := by
      rw [← h2]
      exact Nat.mul_div_cancel _ (by norm_num)
    rw [hdiv]
    ring

/-- C2: the job list is emitted in non-increasing cost order, the cost of a
work order `(i, j)` being `nSeqsPerSpecies i * nSeqsPerSpecies j`; and in the
concrete scenario of species `A = 0` with 3 sequences and `B = 1` with 5
sequences, both new, under the two-way policy the four jobs come out as
`[(B,B) cost 25, (A,B) cost 15, (B,A) cost 15, (A,A) cost 9]`, ties kept in
band-then-enumeration order by the stable sort. -/
theorem getOrderedSearchCommands_cost_ordered :
    (∀ (nSeqs : ℕ → ℕ) (iFirstNew nSpAll : ℕ) (qDoubleBlast : Bool),
        List.Chain' (fun a b => taskSize nSeqs b ≤ taskSize nSeqs a)
          (GetOrderedSearchCommands nSeqs iFirstNew nSpAll qDoubleBlast))
      ∧ GetOrderedSearchCommands (fun i => if i = 0 then 3 else 5) 0 2 true
          = [(1, 1), (0, 1), (1, 0), (0, 0)] := by
  constructor
  · intro nSeqs iFirstNew nSpAll qDoubleBlast
    haveI : IsTotal (ℕ × ℕ) (fun a b => taskSize nSeqs b ≤ taskSize nSeqs a) :=
      ⟨fun a b => Nat.le_total (taskSize nSeqs b) (taskSize nSeqs a)⟩
    haveI : IsTrans (ℕ × ℕ) (fun a b => taskSize nSeqs b ≤ taskSize nSeqs a) :=
      ⟨fun _ _ _ hab hbc => le_trans hbc hab⟩
    exact List.Pairwise.chain' (List.sorted_insertionSort _ _)
  · decide

/-! ## Claims about the argument checks -/

/-- C3 counterexample: selecting both `-f` (start from fasta) and `-b`
(start from precomputed search results) passes every check of `ProcessArgs`
even though two start directives are selected, refuting "selecting more than
one is an InputError": this is the supported add-new-species-to-previous-run
invocation (`__main__.py:1039-1044`). -/
theorem startDirectives_f_and_b_both_accepted :
    startDirectivesOK true true false false = true
      ∧ countStartDirectives true true false false ≠ 1 := by
  decide

/-- C3 amended: the start-directive gate of `ProcessArgs` accepts exactly
the selections consisting of a single directive, or of the pair
`-f` together with `-b` (the add-species run); selecting none, or any other
combination of two or more, is rejected. -/
theorem startDirectivesOK_iff (f b g t : Bool) :
    startDirectivesOK f b g t = true
      ↔ (countStartDirectives f b g t = 1
          ∨ (f = true ∧ b = true ∧ g = false ∧ t = false)) := by
  revert f b g t
  decide

/-! ## Claims about identifier-file validation -/

theorem idsFileOK_cons_of_lineOK {l : String} (h : lineOK l = true) (rest : List String) :
    IDsFileOK (l :: rest) = IDsFileOK rest := by
  by_cases hlen : (pyRstrip l).length = 0
  · simp [IDsFileOK, hlen]
  · simp only [lineOK, hlen, decide_False, Bool.false_or] at h
    cases hsp : splitColonSpace1 (pyRstrip l) with
    | nil => rw [hsp] at h; exact absurd h (by simp)
    | cons t1 ts =>
      cases ts with
      | nil => rw [hsp] at h; exact absurd h (by simp)
      | cons t2 ts2 =>
        cases ts2 with
        | nil =>
          rw [hsp] at h
          have ht2 : ¬(t2.length = 0) := by simpa using h
          simp [IDsFileOK, hlen, hsp, ht2]
        | cons t3 ts3 => rw [hsp] at h; exact absurd h (by simp)

theorem idsFileOK_cons_of_bad {l : String} (h : lineOK l = false) (rest : List String) :
    IDsFileOK (l :: rest) = (false, some (pyRstrip l)) := by
  have hlen : ¬((pyRstrip l).length = 0) := by
    intro hc
    simp [lineOK, hc] at h
  simp only [lineOK, hlen, decide_False, Bool.false_or] at h
  cases hsp : splitColonSpace1 (pyRstrip l) with
  | nil => simp [IDsFileOK, hlen, hsp]
  | cons t1 ts =>
    cases ts with
    | nil => simp [IDsFileOK, hlen, hsp]
    | cons t2 ts2 =>
      cases ts2 with
      | nil =>
        rw [hsp] at h
        have ht2 : t2.length = 0 := by simpa using h
        simp [IDsFileOK, hlen, hsp, ht2]
      | cons t3 ts3 => simp [IDsFileOK, hlen, hsp]

/-- C4 counterexample: for an identifier file containing the line `"3: "`
(blank label), `IDsFileOK` does fail, but the reported line content is the
trailing-whitespace-stripped `"3:"`, not the exact line content `"3: "`
claimed by the specification: `line = line.rstrip()` at `__main__.py:675`
runs before the line is returned at `:679`. -/
theorem idsFileOK_blank_label_reported_stripped :
    IDsFileOK ["3: "] = (false, some "3:") ∧ ("3:" : String) ≠ "3: " := by
  constructor
  · decide
  · decide

/-- C4 amended: a malformed line (one that, after stripping its trailing
whitespace, is non-empty and does not split at `": "` into two tokens with a
non-empty label) makes validation fail, and the diagnostic names the
offending line's content with trailing whitespace stripped — the line is
not silently skipped; for the line `"3: "` the named content is `"3:"`. -/
theorem idsFileOK_reports_first_bad_line (pre : List String) (line : String)
    (post : List String) (hpre : ∀ l ∈ pre, lineOK l = true) (hbad : lineOK line = false) :
    IDsFileOK (pre ++ line :: post) = (false, some (pyRstrip line)) := by
  induction pre with
  | nil => exact idsFileOK_cons_of_bad hbad post
  | cons l pre ih =>
    rw [List.cons_append, idsFileOK_cons_of_lineOK (hpre l (List.mem_cons_self l pre))]
    exact ih (fun l' hl' => hpre l' (List.mem_cons_of_mem l hl'))

theorem idsFileOK_reports_first_bad_line_witness :
    IDsFileOK ["0: A.fa", "1: B.fa", "3: ", "4: C.fa"] = (false, some "3:") := by
  have h := idsFileOK_reports_first_bad_line ["0: A.fa", "1: B.fa"] "3: " ["4: C.fa"]
    (by decide) (by decide)
  simpa using h

/-- C5 counterexample: `IDsFileOK` has no comment handling: the file whose
lines are the comment `"#c"` and the well-formed record `"0: a"` is
rejected with the comment line as the offending content, refuting
"accepts every line beginning with `#` as a comment regardless of its
remaining content". -/
theorem idsFileOK_rejects_comment_line :
    IDsFileOK ["#c", "0: a"] = (false, some "#c")
      ∧ ("#c" : String).data.head? = some '#' := by
  constructor
  · decide
  · decide

/-- C5 amended: `IDsFileOK` accepts exactly the files whose every line,
after stripping trailing whitespace, is empty or splits at `": "` into two
tokens with a non-empty label; blank lines are tolerated anywhere, and a
line beginning with `#` is accepted only if it itself matches that shape
(there is no comment rule in `IDsFileOK`, and no integer check on the id
token). -/
theorem idsFileOK_accepts_wellformed (lines : List String)
    (h : ∀ l ∈ lines, lineOK l = true) : IDsFileOK lines = (true, none) := by
  induction lines with
  | nil => rfl
  | cons l rest ih =>
    rw [idsFileOK_cons_of_lineOK (h l (List.mem_cons_self l rest))]
    exact ih (fun l' hl' => h l' (List.mem_cons_of_mem l hl'))

theorem idsFileOK_accepts_wellformed_witness :
    IDsFileOK ["# species: all", "0: A.fa", "1: B.fa", ""] = (true, none) :=
  idsFileOK_accepts_wellformed _ (by decide)

/-! ## Claims about the pairwise-result continuation check -/

/-- C6: under the two-way policy, if every triangular result file is present
(a `.gz` variant counting as present) but some complementary file is
missing, the check fails with the distinct "usable one-way but not two-way"
diagnosis and every missing complementary file has been listed; if some
triangular file is missing, the generic failure is used instead, and every
missing file found in the pass — triangular and complementary — is listed
individually before failing. -/
theorem checkPreviousBlastResults_diagnoses (speciesToUse : List ℕ)
    (existsPlain existsGz : ℕ → ℕ → Bool) :
    (missingTriangular speciesToUse existsPlain existsGz = [] →
      missingRemainder speciesToUse existsPlain existsGz ≠ [] →
      CheckPreviousBlastResults speciesToUse true existsPlain existsGz
        = (.failOneWayOnly, missingRemainder speciesToUse existsPlain existsGz))
    ∧ (missingTriangular speciesToUse existsPlain existsGz ≠ [] →
      CheckPreviousBlastResults speciesToUse true existsPlain existsGz
        = (.failGeneric, missingTriangular speciesToUse existsPlain existsGz
            ++ missingRemainder speciesToUse existsPlain existsGz)) := by
  constructor
  · intro htri hrem
    have htri' : (missingTriangular speciesToUse existsPlain existsGz).isEmpty = true :=
      List.isEmpty_iff.mpr htri
    have hrem' : ¬((missingRemainder speciesToUse existsPlain existsGz).isEmpty = true) := by
      simpa [List.isEmpty_iff] using hrem
    simp [CheckPreviousBlastResults, htri', hrem', htri]
  · intro htri
    have htri' : ¬((missingTriangular speciesToUse existsPlain existsGz).isEmpty = true) := by
      simpa [List.isEmpty_iff] using htri
    simp [CheckPreviousBlastResults, htri']

/-- Presence function for the witness: the triangular files exist, `(1,1)`
only as its compressed variant, and no complementary file exists. -/
def presentTriPlain : ℕ → ℕ → Bool := fun i j => decide (i ≤ j) && !(decide (i = 1) && decide (j = 1))

/-- Compressed-variant presence function for the witness: only `(1,1).gz`. -/
def presentGz11 : ℕ → ℕ → Bool := fun i j => decide (i = 1) && decide (j = 1)

/-- Presence function for the witness: nothing exists. -/
def presentNone : ℕ → ℕ → Bool := fun _ _ => false

theorem checkPreviousBlastResults_diagnoses_witness :
    CheckPreviousBlastResults [0, 1] true presentTriPlain presentGz11
        = (.failOneWayOnly, [(1, 0)])
      ∧ CheckPreviousBlastResults [0, 1] true presentNone presentNone
        = (.failGeneric, [(0, 0), (0, 1), (1, 1), (1, 0)]) := by
  constructor
  · have h := (checkPreviousBlastResults_diagnoses [0, 1] presentTriPlain presentGz11).1
      (by decide) (by decide)
    rw [h]
    decide
  · have h := (checkPreviousBlastResults_diagnoses [0, 1] presentNone presentNone).2
      (by decide)
    rw [h]
    decide

/-! ## Claims about incremental species registration -/

/-- C7: when fewer than two species would exist in total across the prior
run and the new fasta directory, `ProcessesNewFasta` fails with the
`InputError` of `__main__.py:891-893` and nothing has been written: no
species-ID line, no sequence-ID record, and no per-species fasta file —
the guard runs before the output files are opened at `__main__.py:918`. -/
theorem processesNewFasta_too_few_species (filesInDirectory : List String) (q_dna : Bool)
    (speciesInfoObj_prev : Option SpeciesInfo) (speciesToUse_prev_names : List String)
    (speciesIDsLines : List String) (contents : String → List String)
    (h : (filesInDirectory.filter isFastaFilename).length
        + speciesToUse_prev_names.dedup.length < 2) :
    ProcessesNewFasta filesInDirectory q_dna speciesInfoObj_prev speciesToUse_prev_names
        speciesIDsLines contents
      = ⟨.error .tooFewSpecies, [], [], []⟩ := by
  unfold ProcessesNewFasta
  rw [if_pos h]

theorem processesNewFasta_too_few_species_witness :
    ProcessesNewFasta ["A.fa", "notes.txt"] false none [] [] (fun _ => [">s1", "EF"])
      = ⟨.error .tooFewSpecies, [], [], []⟩ :=
  processesNewFasta_too_few_species _ _ _ _ _ _ (by decide)

/-- When the per-file loop does not abort on a blank accession, it assigns
the ids `i, i+1, …` to the files in iteration order and writes one
species-ID line `"<id>: <strippedName>"` per file. -/
theorem processFastaFiles_not_aborted (contents : String → List String) (q_dna : Bool) :
    ∀ (fns : List String) (i : ℕ),
      (processFastaFiles contents q_dna fns i).2.2.2.2.2 = false →
      (processFastaFiles contents q_dna fns i).1 = List.range' i fns.length
        ∧ (processFastaFiles contents q_dna fns i).2.1
            = ((List.range' i fns.length).zip fns).map
                (fun q => toString q.1 ++ ": " ++ pyRstrip q.2) := by
  intro fns
  induction fns with
  | nil => intro i _; exact ⟨rfl, rfl⟩
  | cons fn rest ih =>
    intro i hab
    by_cases hs : (scanFasta i (contents (pyRstrip fn)) 0 0 false).2.2 = true
    · exfalso
      rw [show (processFastaFiles contents q_dna (fn :: rest) i).2.2.2.2.2 = true by
        simp only [processFastaFiles, hs, if_true]] at hab
      exact absurd hab (by simp)
    · have hab' : (processFastaFiles contents q_dna rest (i + 1)).2.2.2.2.2 = false := by
        revert hab
        simp only [processFastaFiles, hs, if_false, Bool.false_eq_true]
        intro hab
        exact hab
      rcases ih (i + 1) hab' with ⟨hids, hlines⟩
      constructor
      · simp only [processFastaFiles, hs, if_false, Bool.false_eq_true, hids,
          List.length_cons, List.range'_succ]
      · simp only [processFastaFiles, hs, if_false, Bool.false_eq_true, hlines,
          List.length_cons, List.range'_succ, List.zip_cons_cons, List.map_cons]

/-- The success branch of `registerNewSpecies`: on a successful return the
resulting species info extends `speciesToUse` with the contiguous block of
new ids, sets `nSpAll` to one past the maximum id and records the boundary
`iFirstNewSpecies = iSpecies0`; the species-ID lines written are exactly one
per input file in id order. -/
theorem registerNewSpecies_ok_spec (contents : String → List String) (q_dna : Bool)
    (prevInfo : SpeciesInfo) (fns : List String) (i0 : ℕ) (info : SpeciesInfo)
    (hok : (registerNewSpecies contents q_dna prevInfo fns i0).result = .ok info) :
    info = ⟨prevInfo.speciesToUse ++ List.range' i0 fns.length,
        maxId (prevInfo.speciesToUse ++ List.range' i0 fns.length) + 1, i0⟩
      ∧ (registerNewSpecies contents q_dna prevInfo fns i0).speciesLinesWritten
          = ((List.range' i0 fns.length).zip fns).map
              (fun q => toString q.1 ++ ": " ++ pyRstrip q.2) := by
  unfold registerNewSpecies at hok ⊢
  by_cases hab : (processFastaFiles contents q_dna fns i0).2.2.2.2.2 = true
  · rw [if_pos hab] at hok
    exact absurd hok (by simp)
  · rw [if_neg hab] at hok ⊢
    by_cases hqok : (!(processFastaFiles contents q_dna fns i0).2.2.2.2.1) = true
    · rw [if_pos hqok] at hok
      exact absurd hok (by simp)
    · rw [if_neg hqok] at hok ⊢
      have hab' : (processFastaFiles contents q_dna fns i0).2.2.2.2.2 = false := by
        simpa using hab
      rcases processFastaFiles_not_aborted contents q_dna fns i0 hab' with ⟨hids, hlines⟩
      simp only at hok
      constructor
      · injection hok with h
        rw [← h, hids]
      · exact hlines

theorem maxId_cons (a : ℕ) (l : List ℕ) : maxId (a :: l) = max a (maxId l) := rfl

theorem maxId_append (l₁ l₂ : List ℕ) : maxId (l₁ ++ l₂) = max (maxId l₁) (maxId l₂) := by
  induction l₁ with
  | nil => simp [maxId]
  | cons a l ih =>
    rw [List.cons_append, maxId_cons, maxId_cons, ih, Nat.max_assoc]

theorem maxId_le {l : List ℕ} {c : ℕ} (h : ∀ k ∈ l, k ≤ c) : maxId l ≤ c := by
  induction l with
  | nil => exact Nat.zero_le c
  | cons a l ih =>
    rw [maxId_cons]
    exact Nat.max_le.mpr ⟨h a (List.mem_cons_self a l),
      ih (fun k hk => h k (List.mem_cons_of_mem a hk))⟩

theorem maxId_range' (a : ℕ) : ∀ n : ℕ, 0 < n → maxId (List.range' a n) = a + n - 1 := by
  intro n
  induction n generalizing a with
  | zero => intro h; exact absurd h (by omega)
  | succ n ih =>
    intro _
    rw [List.range'_succ, maxId_cons]
    cases Nat.eq_zero_or_pos n with
    | inl h0 =>
      subst h0
      simp [maxId]
    | inr hpos =>
      rw [ih (a + 1) hpos]
      have h1 : a + 1 + n - 1 = a + n := by omega
      rw [h1, Nat.max_eq_right (Nat.le_add_right a n)]
      omega

/-- On a successful return, the input guards passed, the incremental
boundary came from the species-ID file (or 0 for a fresh run), at least one
fasta file was registered, and the whole outcome is that of
`registerNewSpecies` from that boundary. -/
theorem processesNewFasta_ok_cases (filesInDirectory : List String) (q_dna : Bool)
    (speciesInfoObj_prev : Option SpeciesInfo) (speciesToUse_prev_names : List String)
    (speciesIDsLines : List String) (contents : String → List String) (info : SpeciesInfo)
    (hok : (ProcessesNewFasta filesInDirectory q_dna speciesInfoObj_prev
        speciesToUse_prev_names speciesIDsLines contents).result = .ok info) :
    ∃ i0, (if speciesToUse_prev_names.dedup.length ≠ 0
          then nextSpeciesIdFromFile speciesIDsLines else some 0) = some i0
      ∧ 0 < (filesInDirectory.filter isFastaFilename).length
      ∧ ProcessesNewFasta filesInDirectory q_dna speciesInfoObj_prev
            speciesToUse_prev_names speciesIDsLines contents
          = registerNewSpecies contents q_dna (speciesInfoObj_prev.getD ⟨[], 0, 0⟩)
              (filesInDirectory.filter isFastaFilename) i0 := by
  unfold ProcessesNewFasta at hok ⊢
  by_cases h1 : (filesInDirectory.filter isFastaFilename).length
      + speciesToUse_prev_names.dedup.length < 2
  · rw [if_pos h1] at hok
    exact absurd hok (by simp)
  · rw [if_neg h1] at hok ⊢
    by_cases h2 : (filesInDirectory.filter isFastaFilename).any
        (fun fn => decide (fn ∈ speciesToUse_prev_names.dedup)) = true
    · rw [if_pos h2] at hok
      exact absurd hok (by simp)
    · rw [if_neg h2] at hok ⊢
      by_cases h3 : (filesInDirectory.filter isFastaFilename).length = 0
      · rw [if_pos h3] at hok
        exact absurd hok (by simp)
      · rw [if_neg h3] at hok ⊢
        cases hm : (if speciesToUse_prev_names.dedup.length ≠ 0
            then nextSpeciesIdFromFile speciesIDsLines else some 0) with
        | none =>
          rw [hm] at hok
          exact absurd hok (by simp)
        | some i0 =>
          rw [hm] at hok
          exact ⟨i0, rfl, Nat.pos_of_ne_zero h3, rfl⟩

/-- The success specification of `ProcessesNewFasta`: the returned species
info records the incremental boundary, extends the previous `speciesToUse`
with the block of sequentially assigned new ids, sets
`nSpAll = max(speciesToUse) + 1`, and the appended species-ID lines list the
new ids in order. -/
theorem processesNewFasta_ok_spec (filesInDirectory : List String) (q_dna : Bool)
    (speciesInfoObj_prev : Option SpeciesInfo) (speciesToUse_prev_names : List String)
    (speciesIDsLines : List String) (contents : String → List String) (info : SpeciesInfo)
    (hok : (ProcessesNewFasta filesInDirectory q_dna speciesInfoObj_prev
        speciesToUse_prev_names speciesIDsLines contents).result = .ok info) :
    ∃ i0, (if speciesToUse_prev_names.dedup.length ≠ 0
          then nextSpeciesIdFromFile speciesIDsLines else some 0) = some i0
      ∧ 0 < (filesInDirectory.filter isFastaFilename).length
      ∧ info.iFirstNewSpecies = i0
      ∧ info.speciesToUse
          = (speciesInfoObj_prev.getD ⟨[], 0, 0⟩).speciesToUse
              ++ List.range' i0 (filesInDirectory.filter isFastaFilename).length
      ∧ info.nSpAll = maxId info.speciesToUse + 1
      ∧ (ProcessesNewFasta filesInDirectory q_dna speciesInfoObj_prev
            speciesToUse_prev_names speciesIDsLines contents).speciesLinesWritten
          = ((List.range' i0 (filesInDirectory.filter isFastaFilename).length).zip
              (filesInDirectory.filter isFastaFilename)).map
              (fun q => toString q.1 ++ ": " ++ pyRstrip q.2) := by
  rcases processesNewFasta_ok_cases filesInDirectory q_dna speciesInfoObj_prev
      speciesToUse_prev_names speciesIDsLines contents info hok with ⟨i0, hi0, hpos, heq⟩
  rw [heq] at hok
  rcases registerNewSpecies_ok_spec contents q_dna (speciesInfoObj_prev.getD ⟨[], 0, 0⟩)
      (filesInDirectory.filter isFastaFilename) i0 info hok with ⟨hinfo, hlines⟩
  refine ⟨i0, hi0, hpos, ?_, ?_, ?_, ?_⟩
  · rw [hinfo]
  · rw [hinfo]
  · rw [hinfo]
  · rw [heq]
    exact hlines

/-- C8: incremental species-id assignment.  On a successful run the
incremental boundary is the id parsed from the last line of the prior
species-ID file plus 1 — `nextSpeciesIdFromFile` — or 0 when there is no
prior state; the new ids are the contiguous block starting there, assigned
by +1 increments in input iteration order; the id files are opened in append
mode so prior entries are untouched and the run only appends the new lines;
and, provided every id recorded in the prior file is below the boundary
(which holds for files this code produces, ids being appended in increasing
order), every id assigned in this run is strictly greater than every id
recorded by the previous run. -/
theorem processesNewFasta_id_assignment (filesInDirectory : List String) (q_dna : Bool)
    (speciesInfoObj_prev : Option SpeciesInfo) (speciesToUse_prev_names : List String)
    (speciesIDsLines : List String) (contents : String → List String) (info : SpeciesInfo)
    (i0 : ℕ)
    (h0 : (if speciesToUse_prev_names.dedup.length ≠ 0
        then nextSpeciesIdFromFile speciesIDsLines else some 0) = some i0)
    (hok : (ProcessesNewFasta filesInDirectory q_dna speciesInfoObj_prev
        speciesToUse_prev_names speciesIDsLines contents).result = .ok info)
    (hprior : ∀ l ∈ speciesIDsLines, ∀ k, lineSpeciesId l = some k → k < i0) :
    info.iFirstNewSpecies = i0
      ∧ info.speciesToUse
          = (speciesInfoObj_prev.getD ⟨[], 0, 0⟩).speciesToUse
              ++ List.range' i0 (filesInDirectory.filter isFastaFilename).length
      ∧ (ProcessesNewFasta filesInDirectory q_dna speciesInfoObj_prev
            speciesToUse_prev_names speciesIDsLines contents).speciesLinesWritten
          = ((List.range' i0 (filesInDirectory.filter isFastaFilename).length).zip
              (filesInDirectory.filter isFastaFilename)).map
              (fun q => toString q.1 ++ ": " ++ pyRstrip q.2)
      ∧ (∀ j ∈ List.range' i0 (filesInDirectory.filter isFastaFilename).length,
          ∀ l ∈ speciesIDsLines, ∀ k, lineSpeciesId l = some k → k < j) := by
  rcases processesNewFasta_ok_spec filesInDirectory q_dna speciesInfoObj_prev
      speciesToUse_prev_names speciesIDsLines contents info hok with
    ⟨i0', hi0', _, hfirst, hstu, _, hlines⟩
  have hi0eq : i0' = i0 := by
    rw [h0] at hi0'
    exact (Option.some.injEq _ _).mp hi0'.symm
  subst hi0eq
  refine ⟨hfirst, hstu, hlines, ?_⟩
  intro j hj l hl k hk
  exact lt_of_lt_of_le (hprior l hl k hk) (mem_range'_ge hj)

theorem processesNewFasta_id_assignment_witness :
    (ProcessesNewFasta ["C.fa"] false (some ⟨[0, 1], 2, 0⟩) ["A.fa", "B.fa"]
        ["0: A.fa", "1: B.fa"] (fun _ => [">u1", "EF"])).speciesLinesWritten
      = ["2: C.fa"] := by
  have h := processesNewFasta_id_assignment ["C.fa"] false (some ⟨[0, 1], 2, 0⟩)
    ["A.fa", "B.fa"] ["0: A.fa", "1: B.fa"] (fun _ => [">u1", "EF"]) ⟨[0, 1, 2], 3, 2⟩ 2
    (by decide) (by decide) ?_
  · rw [h.2.2.1]
    decide
  · intro l hl k hk
    fin_cases hl
    · have he : lineSpeciesId "0: A.fa" = some 0 := by decide
      rw [he] at hk
      injection hk with hk
      omega
    · have he : lineSpeciesId "1: B.fa" = some 1 := by decide
      rw [he] at hk
      injection hk with hk
      omega

/-- C9: on the Prepare→Search transition, `CreateSearchDatabases` builds a
search database for exactly the ids `[0, nSpAll)` of the species info
produced by `ProcessesNewFasta` — every id from 0 through the maximum
in-use id inclusive, so previous species and ids missing from the
species-to-use list are included, not only the new species. -/
theorem createSearchDatabases_covers_all_ids (filesInDirectory : List String) (q_dna : Bool)
    (speciesInfoObj_prev : Option SpeciesInfo) (speciesToUse_prev_names : List String)
    (speciesIDsLines : List String) (contents : String → List String) (info : SpeciesInfo)
    (hok : (ProcessesNewFasta filesInDirectory q_dna speciesInfoObj_prev
        speciesToUse_prev_names speciesIDsLines contents).result = .ok info) :
    ∀ i, i ∈ CreateSearchDatabases info.speciesToUse ↔ i < info.nSpAll := by
  rcases processesNewFasta_ok_spec filesInDirectory q_dna speciesInfoObj_prev
      speciesToUse_prev_names speciesIDsLines contents info hok with
    ⟨i0, _, _, _, _, hnsp, _⟩
  intro i
  rw [CreateSearchDatabases, List.mem_range, hnsp]

theorem createSearchDatabases_covers_all_ids_witness :
    1 ∈ CreateSearchDatabases (⟨[0, 2], 3, 2⟩ : SpeciesInfo).speciesToUse
      ↔ 1 < (⟨[0, 2], 3, 2⟩ : SpeciesInfo).nSpAll :=
  createSearchDatabases_covers_all_ids ["C.fa"] false (some ⟨[0], 1, 0⟩) ["A.fa"]
    ["0: A.fa", "#1: B.fa"] (fun _ => [">u1", "EF"]) ⟨[0, 2], 3, 2⟩ (by decide) 1

/-- In the one-way band list, a pair with a previous query and a new target
occurs exactly once, and its reverse not at all. -/
theorem speciesPairs_count_prev_new (f n i j : ℕ) (hif : i < f) (hfj : f ≤ j) (hjn : j < n) :
    (speciesPairs f n false).count (i, j) = 1
      ∧ (speciesPairs f n false).count (j, i) = 0 := by
  have hb2 := filter_le_new_prev_nil f (n - f)
  have hb3 := filter_le_prev_new_all f (n - f)
  constructor
  · simp only [speciesPairs, Bool.false_or]
    rw [List.count_append, List.count_append, hb2, hb3]
    have hc1 : ((pairProd (List.range' f (n - f)) (List.range' f (n - f))).filter
        (fun p => decide (p.1 ≤ p.2))).count (i, j) = 0 := by
      rw [List.count_eq_zero]
      intro hmem
      exact absurd (mem_range'_ge (mem_pairProd.mp (List.mem_filter.mp hmem).1).1)
        (Nat.not_le.mpr hif)
    have hc3 : (pairProd (List.range f) (List.range' f (n - f))).count (i, j) = 1 := by
      rw [pairProd_count,
        List.count_eq_one_of_mem (List.nodup_range f) (List.mem_range.mpr hif),
        List.count_eq_one_of_mem (List.nodup_range' _ _)
          (List.mem_range'_1.mpr ⟨hfj, by omega⟩)]
    rw [hc1, hc3]
    simp
  · simp only [speciesPairs, Bool.false_or]
    rw [List.count_append, List.count_append, hb2, hb3]
    have hc1 : ((pairProd (List.range' f (n - f)) (List.range' f (n - f))).filter
        (fun p => decide (p.1 ≤ p.2))).count (j, i) = 0 := by
      rw [List.count_eq_zero]
      intro hmem
      exact absurd (mem_range'_ge (mem_pairProd.mp (List.mem_filter.mp hmem).1).2)
        (Nat.not_le.mpr hif)
    have hc3 : (pairProd (List.range f) (List.range' f (n - f))).count (j, i) = 0 := by
      rw [pairProd_count]
      have : List.count j (List.range f) = 0 :=
        List.count_eq_zero.mpr (fun hc => absurd (List.mem_range.mp hc) (Nat.not_lt.mpr hfj))
      rw [this, Nat.zero_mul]
    rw [hc1, hc3]
    simp

/-- C10: in an incremental run every new species id is strictly greater than
every previous species id — provided the previous in-use ids come from the
prior species-ID file and every id recorded there is below the boundary
`nextSpeciesIdFromFile` — and the new ids occupy exactly
`[iFirstNewSpecies, nSpAll)`; consequently, under the one-way policy the
(new query × previous target) band of `GetOrderedSearchCommands` is empty,
and each previous/new pair is scheduled exactly once, with the previous
species as the query and the new species as the target, its reverse never
appearing. -/
theorem newPrev_pairs_scheduled_once (filesInDirectory : List String) (q_dna : Bool)
    (speciesInfoObj_prev : Option SpeciesInfo) (speciesToUse_prev_names : List String)
    (speciesIDsLines : List String) (contents : String → List String) (info : SpeciesInfo)
    (i0 : ℕ)
    (h0 : (if speciesToUse_prev_names.dedup.length ≠ 0
        then nextSpeciesIdFromFile speciesIDsLines else some 0) = some i0)
    (hok : (ProcessesNewFasta filesInDirectory q_dna speciesInfoObj_prev
        speciesToUse_prev_names speciesIDsLines contents).result = .ok info)
    (hfile : ∀ l ∈ speciesIDsLines, ∀ k, lineSpeciesId l = some k → k < i0)
    (hprev : ∀ k ∈ (speciesInfoObj_prev.getD ⟨[], 0, 0⟩).speciesToUse,
        ∃ l ∈ speciesIDsLines, lineSpeciesId l = some k) :
    (∀ k ∈ (speciesInfoObj_prev.getD ⟨[], 0, 0⟩).speciesToUse,
        ∀ j ∈ List.range' i0 (filesInDirectory.filter isFastaFilename).length, k < j)
      ∧ info.nSpAll = i0 + (filesInDirectory.filter isFastaFilename).length
      ∧ (∀ (nSeqs : ℕ → ℕ) (f n i j : ℕ), i < f → f ≤ j → j < n →
          (GetOrderedSearchCommands nSeqs f n false).count (i, j) = 1
            ∧ (GetOrderedSearchCommands nSeqs f n false).count (j, i) = 0)
      ∧ (∀ f n : ℕ,
          (pairProd (List.range' f (n - f)) (List.range f)).filter
              (fun p => decide (p.1 ≤ p.2)) = []) := by
  have hklt : ∀ k ∈ (speciesInfoObj_prev.getD ⟨[], 0, 0⟩).speciesToUse, k < i0 := by
    intro k hk
    rcases hprev k hk with ⟨l, hl, hid⟩
    exact hfile l hl k hid
  rcases processesNewFasta_ok_spec filesInDirectory q_dna speciesInfoObj_prev
      speciesToUse_prev_names speciesIDsLines contents info hok with
    ⟨i0', hi0', hpos, _, hstu, hnsp, _⟩
  have hi0eq : i0' = i0 := by
    rw [h0] at hi0'
    exact (Option.some.injEq _ _).mp hi0'.symm
  rw [hi0eq] at hstu
  refine ⟨?_, ?_, ?_, fun f n => filter_le_new_prev_nil f (n - f)⟩
  · intro k hk j hj
    exact lt_of_lt_of_le (hklt k hk) (mem_range'_ge hj)
  · rw [hnsp, hstu, maxId_append,
      maxId_range' i0 (filesInDirectory.filter isFastaFilename).length hpos]
    have hle : maxId (speciesInfoObj_prev.getD ⟨[], 0, 0⟩).speciesToUse
        ≤ i0 + (filesInDirectory.filter isFastaFilename).length - 1 :=
      maxId_le (fun k hk => by have := hklt k hk; omega)
    rw [Nat.max_eq_right hle]
    omega
  · intro nSeqs f n i j hif hfj hjn
    have hperm := List.perm_insertionSort
      (fun a b => taskSize nSeqs b ≤ taskSize nSeqs a) (speciesPairs f n false)
    have heq : GetOrderedSearchCommands nSeqs f n false
        = (speciesPairs f n false).insertionSort
            (fun a b => taskSize nSeqs b ≤ taskSize nSeqs a) := rfl
    have hc := speciesPairs_count_prev_new f n i j hif hfj hjn
    rw [heq]
    have hcnt : ∀ a : ℕ × ℕ,
        ((speciesPairs f n false).insertionSort
            (fun a b => taskSize nSeqs b ≤ taskSize nSeqs a)).count a
          = (speciesPairs f n false).count a := by
      intro a
      rw [List.count_eq_countP, List.count_eq_countP]
      exact hperm.countP_eq _
    exact ⟨(hcnt (i, j)).trans hc.1, (hcnt (j, i)).trans hc.2⟩

theorem newPrev_pairs_scheduled_once_witness :
    (⟨[0, 2], 3, 2⟩ : SpeciesInfo).nSpAll = 2 + 1
      ∧ (GetOrderedSearchCommands (fun _ => 1) 2 3 false).count (0, 2) = 1
      ∧ (GetOrderedSearchCommands (fun _ => 1) 2 3 false).count (2, 0) = 0 := by
  have h := newPrev_pairs_scheduled_once ["C.fa"] false (some ⟨[0], 1, 0⟩) ["A.fa"]
    ["0: A.fa", "#1: B.fa"] (fun _ => [">u1", "EF"]) ⟨[0, 2], 3, 2⟩ 2 (by decide) (by decide)
    ?_ ?_
  · refine ⟨?_, (h.2.2.1 (fun _ => 1) 2 3 0 2 (by omega) (by omega) (by omega)).1,
      (h.2.2.1 (fun _ => 1) 2 3 0 2 (by omega) (by omega) (by omega)).2⟩
    rw [h.2.1]
    decide
  · intro l hl k hk
    fin_cases hl
    · have he : lineSpeciesId "0: A.fa" = some 0 := by decide
      rw [he] at hk
      injection hk with hk
      omega
    · have he : lineSpeciesId "#1: B.fa" = some 1 := by decide
      rw [he] at hk
      injection hk with hk
      omega
  · intro k hk
    fin_cases hk
    exact ⟨"0: A.fa", by simp, by decide⟩

end OrthoFinder
